import Mathlib

/-!
Verification of the thread-pool design of this repository.

The only source file, `src/runtime/bin/thread_pool_macos.h`, declares the
class `ThreadPoolData`: a holder for a `pthread_t*` whose every member is
private, with `ThreadPool` as its single friend, and with allocation, copy
construction and copy assignment disallowed.  The surrounding thread pool
(task queue, worker loop, registry, shutdown) is described by the design
document but its code is not in `src/`; those parts are modelled from the
spec below, each such definition marked `Modelled from the spec:`.
-/

/-! ## Part 1: `ThreadPoolData` from `src/runtime/bin/thread_pool_macos.h` -/

/-- Shallow embedding of `class ThreadPoolData`.  The single data member
`pthread_t* threads_` is modelled as an optional machine address:
`none` stands for an indeterminate (never written) pointer value, which is
what the defaulted-empty constructor leaves behind in C++. -/
structure ThreadPoolData where
  threads_ : Option Nat
  deriving DecidableEq

namespace ThreadPoolData

/-- The constructor `ThreadPoolData() {}`: its body is empty and it has no
initializer list, so the pointer member is left unwritten (`none`). -/
def ctor : ThreadPoolData := ⟨none⟩

/-- Accessor `pthread_t* threads() { return threads_; }`. -/
def threads (d : ThreadPoolData) : Option Nat := d.threads_

/-- Mutator `void set_threads(pthread_t* threads) { threads_ = threads; }`. -/
def set_threads (d : ThreadPoolData) (p : Nat) : ThreadPoolData :=
  { d with threads_ := some p }

end ThreadPoolData

/-! ### Access control of `ThreadPoolData`

The header places every member of `ThreadPoolData` in a `private:` section
and declares `friend class ThreadPool;`.  We embed the C++ access rules as
data read off the class declaration and the member-access check that the
compiler applies. -/

/-- C++ access levels. -/
inductive CppAccess
  | priv
  | pub
  | prot
  deriving DecidableEq

/-- The members of `ThreadPoolData`.  The first five are written out in the
header; the last three are introduced by the `DISALLOW_ALLOCATION()` and
`DISALLOW_COPY_AND_ASSIGN(ThreadPoolData)` macro invocations on its last
two lines. -/
inductive TPDMember
  | defaultCtor
  | dtor
  | threadsGetter
  | setThreadsSetter
  | threadsField
  | copyCtor
  | copyAssign
  | operatorNew
  deriving DecidableEq

/-- Access level of each member of `ThreadPoolData`: the class body has a
single `private:` section containing every declaration.
For `copyCtor`, `copyAssign` and `operatorNew` this is
modelled from the spec: the two `DISALLOW_*` macros come from
`platform/globals.h`, which is not in `src/`; following the design note
that copying and independent allocation are disallowed, they declare the
copy constructor, copy assignment and `operator new` as private. -/
def memberAccess : TPDMember → CppAccess := fun _ => .priv

/-- The friend declarations in the class body: exactly `friend class ThreadPool;`. -/
def friendDecls : List String := ["ThreadPool"]

/-- The C++ member-access rule for `ThreadPoolData`: a component (class or
free code, named by a string, with free code named `""`) may name a member
iff the member is public, or the component is the class itself, or the
component is a declared friend. -/
def canAccess (component : String) (m : TPDMember) : Bool :=
  memberAccess m == .pub || component == "ThreadPoolData" ||
    friendDecls.contains component

/-- Members that the `DISALLOW_*` macros declare but never define, so that
any reachable use fails to link.  Modelled from the spec: the macro bodies
live in `platform/globals.h`, outside `src/`; the design note and the macro
names say copying, assignment and heap allocation are disallowed. -/
def undefinedMembers : List TPDMember := [.copyCtor, .copyAssign, .operatorNew]

/-- A component can actually invoke a member only if access is granted and
the member has a definition to link against. -/
def canInvoke (component : String) (m : TPDMember) : Bool :=
  canAccess component m && !(undefinedMembers.contains m)

/-! ## Theorems about `ThreadPoolData` (claims C1, C2, C9, C10) -/

/-- C1: every member of `ThreadPoolData` — constructor, destructor, the
`threads()`/`set_threads()` accessors and the `threads_` field — is
private, and any component granted access to any member is either
`ThreadPoolData` itself (whose own members are in turn reachable only via
its single friend) or the friend class `ThreadPool`; hence no component
other than the owning `ThreadPool` can read or mutate the stored handles. -/
theorem threadPoolData_storage_private :
    (∀ m : TPDMember, memberAccess m = .priv) ∧
    (∀ (c : String) (m : TPDMember),
      canAccess c m = true → c = "ThreadPoolData" ∨ c = "ThreadPool") := by
  constructor
  · intro m
    rfl
  · intro c m h
    simp only [canAccess, memberAccess, friendDecls, Bool.or_eq_true, beq_iff_eq,
      List.contains, List.elem_eq_mem, List.mem_singleton, decide_eq_true_eq] at h
    rcases h with (h | h) | h
    · cases h
    · exact Or.inl h
    · exact Or.inr h

/-- Witness for C1: the friend `ThreadPool` is granted access to the
`threads()` getter, and the theorem places it in the allowed set. -/
theorem threadPoolData_storage_private_witness :
    "ThreadPool" = "ThreadPoolData" ∨ "ThreadPool" = "ThreadPool" :=
  threadPoolData_storage_private.2 "ThreadPool" TPDMember.threadsGetter (by decide)

/-- C2: for every `ThreadPoolData` `d` and pointer `p`, `set_threads p`
followed by `threads()` returns exactly `p`, and `set_threads` writes only
the `threads_` field — `threads_` being the object's only field, the
resulting object is determined by `p` alone. -/
theorem set_threads_then_threads (d : ThreadPoolData) (p : Nat) :
    (d.set_threads p).threads = some p ∧
    d.set_threads p = ⟨some p⟩ := by
  exact ⟨rfl, rfl⟩

/-- C9: the constructor does not initialize `threads_`: a freshly
constructed `ThreadPoolData` on which `set_threads` has never been called
yields the indeterminate value (modelled `none`) from `threads()`. -/
theorem ctor_leaves_threads_uninitialized :
    ThreadPoolData.ctor.threads = none := rfl

/-- C10: no component whatsoever — not even the class itself or its friend
`ThreadPool` — can invoke the copy constructor, the copy assignment
operator, or `operator new` of `ThreadPoolData`, since the `DISALLOW_*`
macros declare them private and leave them undefined; so no copy of a
`ThreadPoolData` and no independent heap allocation of one can ever be
made, and the stored handle pointer is never aliased through a copy. -/
theorem threadPoolData_no_copy_no_alloc (c : String) :
    canInvoke c .copyCtor = false ∧
    canInvoke c .copyAssign = false ∧
    canInvoke c .operatorNew = false := by
  refine ⟨?_, ?_, ?_⟩ <;>
    simp [canInvoke, undefinedMembers]

/-! ## Part 2: the thread pool, modelled from the spec

The design document describes a Task Queue, Worker loop, Thread Handle
Registry and Thread Pool whose code is not in `src/` (only the handle
storage above is).  Each definition in this part is modelled from the
spec.  Concurrency is embedded as an interleaving of atomic operations:
an execution of the pool with any number of concurrent submitters and
workers is a list of `PoolOp`s folded over the initial state. -/

namespace Pool

/-- Modelled from the spec: tasks are opaque single-invocation units; we
identify a task by a number. -/
abbrev Task := Nat

/-- Modelled from the spec: the two shutdown modes, *drain* (queued tasks
finish) and *immediate* (queued tasks are discarded). -/
inductive ShutdownMode
  | Drain
  | Immediate
  deriving DecidableEq

/-- Modelled from the spec: the error taxonomy relevant to submission.
`Closed` is submission after shutdown started; `ResourceExhausted` is
native thread creation failure (recovered internally, never surfaced by
`submit`). -/
inductive PoolError
  | Closed
  | ResourceExhausted
  deriving DecidableEq

/-- Modelled from the spec: the Task Queue — a strict FIFO of pending
tasks plus the shutdown signal that closes it for submission and wakes
blocked consumers. -/
structure TaskQueue where
  items : List Task
  closed : Bool
  deriving DecidableEq

/-- Modelled from the spec: what `dequeue_blocking()` can produce — the
oldest task, a "no more work" result after shutdown, or suspension of the
caller (`wouldBlock`) when the queue is empty and open. -/
inductive DequeueOutcome
  | gotTask (t : Task)
  | noMoreWork
  | wouldBlock
  deriving DecidableEq

/-- Modelled from the spec: `enqueue(task)` appends in O(1); enqueue after
shutdown fails with a `Closed` condition. -/
def enqueue (q : TaskQueue) (t : Task) : Except PoolError TaskQueue :=
  if q.closed then .error .Closed
  else .ok { q with items := q.items ++ [t] }

/-- Modelled from the spec: `dequeue_blocking()` removes and returns the
oldest task; on an empty queue it suspends the caller until a task arrives
or a shutdown signal arrives, in which case it returns "no more work". -/
def dequeueBlocking (q : TaskQueue) : DequeueOutcome × TaskQueue :=
  match q.items with
  | t :: rest => (.gotTask t, { q with items := rest })
  | [] => if q.closed then (.noMoreWork, q) else (.wouldBlock, q)

/-- Modelled from the spec: the Thread Pool state — the owned task queue,
the live worker counts split by worker state (Idle / Running), the Thread
Handle Registry of native handles not yet joined, the configured maximum
worker count, and history variables (`accepted`, `dequeued`, `discarded`)
recording, in order, the submissions accepted, the tasks handed to workers,
and the tasks discarded by an immediate shutdown. -/
structure PoolState where
  maxWorkers : Nat
  tq : TaskQueue
  idle : Nat
  running : Nat
  registry : List Nat
  nextHandle : Nat
  accepted : List Task
  dequeued : List Task
  discarded : List Task
  deriving DecidableEq

/-- Modelled from the spec: the pool as constructed by the host with
configuration `max_workers`: no workers, empty open queue, empty registry. -/
def init (maxWorkers : Nat) : PoolState :=
  { maxWorkers := maxWorkers
    tq := { items := [], closed := false }
    idle := 0
    running := 0
    registry := []
    nextHandle := 0
    accepted := []
    dequeued := []
    discarded := [] }

/-- Modelled from the spec: `submit(task)` fails with `Closed` if shutdown
has begun; otherwise it enqueues the task and, if no worker is Idle and
the live-worker count is below the maximum, tries to spawn a new Worker,
registering its handle before returning.  `spawnOk = false` models the
platform `spawn` failing with `ResourceExhausted`: the pool stays at its
current worker count, leaves the task queued, and the submission still
succeeds. -/
def submit (s : PoolState) (t : Task) (spawnOk : Bool) :
    Except PoolError Unit × PoolState :=
  match enqueue s.tq t with
  | .error e => (.error e, s)
  | .ok q =>
    let s1 := { s with tq := q, accepted := s.accepted ++ [t] }
    if s1.idle = 0 ∧ s1.idle + s1.running < s1.maxWorkers then
      if spawnOk then
        (.ok (), { s1 with idle := s1.idle + 1
                           registry := s1.registry ++ [s1.nextHandle]
                           nextHandle := s1.nextHandle + 1 })
      else (.ok (), s1)
    else (.ok (), s1)

/-- Modelled from the spec: an Idle worker performs a blocking dequeue.
If it obtains a task it transitions to Running; if it receives the
shutdown signal it exits and its handle is joined and unregistered; if the
queue is empty and open it stays blocked.  A no-op when no worker is Idle
(there is no caller to dequeue). -/
def workerDequeue (s : PoolState) : PoolState :=
  if s.idle = 0 then s
  else
    match dequeueBlocking s.tq with
    | (.gotTask t, q) =>
      { s with tq := q
               dequeued := s.dequeued ++ [t]
               idle := s.idle - 1
               running := s.running + 1 }
    | (.noMoreWork, _) =>
      { s with idle := s.idle - 1, registry := s.registry.tail }
    | (.wouldBlock, _) => s

/-- Modelled from the spec: a Running worker finishes its task (the task is
destroyed after execution; failures are contained at the worker boundary)
and returns to Idle.  A no-op when no worker is Running. -/
def workerComplete (s : PoolState) : PoolState :=
  if s.running = 0 then s
  else { s with running := s.running - 1, idle := s.idle + 1 }

/-- Modelled from the spec: idle-timeout retirement — an Idle worker that
has waited past the idle bound retires, unregistering its own handle.
A no-op when no worker is Idle. -/
def retireIdle (s : PoolState) : PoolState :=
  if s.idle = 0 then s
  else { s with idle := s.idle - 1, registry := s.registry.tail }

/-- Modelled from the spec: `join_all()` joins every registered handle and
empties the registry; after it no worker thread of the pool is executing. -/
def joinAll (s : PoolState) : PoolState :=
  { s with idle := 0, running := 0, registry := [] }

/-- Modelled from the spec: `shutdown(mode)` blocks until fully stopped:
it closes the queue, lets the drained tasks be dequeued by workers
(*drain* mode) or discards the still-queued tasks (*immediate* mode),
signals all workers and joins them via `join_all()`.  Idempotent: a second
call while shutdown has happened returns without re-running it. -/
def shutdown (s : PoolState) (m : ShutdownMode) : PoolState :=
  if s.tq.closed then s
  else
    match m with
    | .Drain =>
      joinAll { s with tq := { items := [], closed := true }
                       dequeued := s.dequeued ++ s.tq.items }
    | .Immediate =>
      joinAll { s with tq := { items := [], closed := true }
                       discarded := s.discarded ++ s.tq.items }

/-- Modelled from the spec: the atomic operations whose interleavings form
the executions of the pool (any pattern of concurrent submitters and
workers is some list of these). -/
inductive PoolOp
  | submit (t : Task) (spawnOk : Bool)
  | dequeue
  | complete
  | retire
  | shutdown (m : ShutdownMode)
  deriving DecidableEq

/-- One atomic step of an execution. -/
def step (s : PoolState) (o : PoolOp) : PoolState :=
  match o with
  | .submit t ok => (submit s t ok).2
  | .dequeue => workerDequeue s
  | .complete => workerComplete s
  | .retire => retireIdle s
  | .shutdown m => shutdown s m

/-- An execution: fold a list of operations over a state. -/
def run (s : PoolState) (ops : List PoolOp) : PoolState :=
  ops.foldl step s

/-! ### The inductive invariant of pool executions -/

/-- The inductive invariant of pool executions, read off the spec's
invariants, for a pool configured with maximum worker count `mw`:
the configuration never changes; the live worker count (Idle plus
Running) is bounded by the configured maximum; every registered handle
corresponds to exactly one live worker; tasks are discarded only by an
immediate shutdown (so a non-empty discard history implies the queue is
closed); once the queue is closed it is empty, and shutdown has joined
every worker and emptied the registry; and the accepted submissions are
exactly the dequeued tasks, then the discarded tasks, then the
still-queued tasks, in order. -/
structure Inv (mw : Nat) (s : PoolState) : Prop where
  max_eq : s.maxWorkers = mw
  live_le : s.idle + s.running ≤ s.maxWorkers
  reg_len : s.registry.length = s.idle + s.running
  disc_closed : s.discarded ≠ [] → s.tq.closed = true
  closed_items : s.tq.closed = true → s.tq.items = []
  closed_workers : s.tq.closed = true → s.idle = 0 ∧ s.running = 0 ∧ s.registry = []
  order : s.accepted = s.dequeued ++ s.discarded ++ s.tq.items

theorem inv_init (mw : Nat) : Inv mw (init mw) := by
  constructor <;> simp [init]

theorem inv_submit (mw : Nat) (s : PoolState) (t : Task) (ok : Bool)
    (h : Inv mw s) : Inv mw (submit s t ok).2 := by
  obtain ⟨h0, h1, h2, h3, h4, h5, h6⟩ := h
  by_cases hc : s.tq.closed = true
  · simp only [submit, enqueue, hc, if_true]
    exact ⟨h0, h1, h2, h3, h4, h5, h6⟩
  · rw [Bool.not_eq_true] at hc
    have hd : s.discarded = [] := by
      by_contra hne
      simp [h3 hne] at hc
    simp only [submit, enqueue, hc, Bool.false_eq_true, if_false]
    split
    · rename_i hcond
      split
      · refine ⟨h0, ?_, ?_, ?_, ?_, ?_, ?_⟩
        · simp only
          omega
        · simp [h2]
          omega
        · simp [hd]
        · simp
        · simp
        · simp [h6, List.append_assoc]
      · refine ⟨h0, ?_, ?_, ?_, ?_, ?_, ?_⟩
        · simp only
          omega
        · simp [h2]
        · simp [hd]
        · simp
        · simp
        · simp [h6, List.append_assoc]
    · refine ⟨h0, ?_, ?_, ?_, ?_, ?_, ?_⟩
      · simp only
        omega
      · simp [h2]
      · simp [hd]
      · simp
      · simp
      · simp [h6, List.append_assoc]

theorem inv_workerDequeue (mw : Nat) (s : PoolState) (h : Inv mw s) :
    Inv mw (workerDequeue s) := by
  obtain ⟨h0, h1, h2, h3, h4, h5, h6⟩ := h
  unfold workerDequeue
  by_cases hi : s.idle = 0
  · simp only [hi, if_true]
    exact ⟨h0, h1, h2, h3, h4, h5, h6⟩
  · simp only [hi, if_false]
    cases hq : s.tq.items with
    | cons t rest =>
      have hc : s.tq.closed = false := by
        by_contra hcc
        rw [Bool.not_eq_false] at hcc
        rw [h4 hcc] at hq
        cases hq
      have hd : s.discarded = [] := by
        by_contra hne
        simp [h3 hne] at hc
      simp only [dequeueBlocking, hq]
      refine ⟨h0, ?_, ?_, ?_, ?_, ?_, ?_⟩
      · simp only
        omega
      · simp only
        omega
      · simp [hd]
      · simp [hc]
      · simp [hc]
      · simp [h6, hq, hd, List.append_assoc]
    | nil =>
      by_cases hc : s.tq.closed = true
      · exact absurd (h5 hc).1 hi
      · rw [Bool.not_eq_true] at hc
        simp only [dequeueBlocking, hq, hc, Bool.false_eq_true, if_false]
        exact ⟨h0, h1, h2, h3, h4, h5, h6⟩

theorem inv_workerComplete (mw : Nat) (s : PoolState) (h : Inv mw s) :
    Inv mw (workerComplete s) := by
  obtain ⟨h0, h1, h2, h3, h4, h5, h6⟩ := h
  unfold workerComplete
  by_cases hr : s.running = 0
  · simp only [hr, if_true]
    exact ⟨h0, h1, h2, h3, h4, h5, h6⟩
  · simp only [hr, if_false]
    refine ⟨h0, ?_, ?_, h3, h4, ?_, h6⟩
    · simp only
      omega
    · simp only
      omega
    · intro hcc
      exact absurd (h5 hcc).2.1 hr

theorem inv_retireIdle (mw : Nat) (s : PoolState) (h : Inv mw s) :
    Inv mw (retireIdle s) := by
  obtain ⟨h0, h1, h2, h3, h4, h5, h6⟩ := h
  unfold retireIdle
  by_cases hi : s.idle = 0
  · simp only [hi, if_true]
    exact ⟨h0, h1, h2, h3, h4, h5, h6⟩
  · simp only [hi, if_false]
    refine ⟨h0, ?_, ?_, h3, h4, ?_, h6⟩
    · simp only
      omega
    · simp only [List.length_tail]
      omega
    · intro hcc
      exact absurd (h5 hcc).1 hi

theorem inv_shutdown (mw : Nat) (s : PoolState) (m : ShutdownMode)
    (h : Inv mw s) : Inv mw (shutdown s m) := by
  obtain ⟨h0, h1, h2, h3, h4, h5, h6⟩ := h
  unfold shutdown
  by_cases hc : s.tq.closed = true
  · simp only [hc, if_true]
    exact ⟨h0, h1, h2, h3, h4, h5, h6⟩
  · rw [Bool.not_eq_true] at hc
    have hd : s.discarded = [] := by
      by_contra hne
      simp [h3 hne] at hc
    simp only [hc, Bool.false_eq_true, if_false]
    cases m
    · refine ⟨h0, ?_, ?_, ?_, ?_, ?_, ?_⟩ <;>
        simp [joinAll, h6, hd]
    · refine ⟨h0, ?_, ?_, ?_, ?_, ?_, ?_⟩ <;>
        simp [joinAll, h6, hd]

theorem inv_step (mw : Nat) (s : PoolState) (o : PoolOp) (h : Inv mw s) :
    Inv mw (step s o) := by
  cases o with
  | submit t ok => exact inv_submit mw s t ok h
  | dequeue => exact inv_workerDequeue mw s h
  | complete => exact inv_workerComplete mw s h
  | retire => exact inv_retireIdle mw s h
  | shutdown m => exact inv_shutdown mw s m h

theorem inv_run (mw : Nat) (s : PoolState) (ops : List PoolOp) (h : Inv mw s) :
    Inv mw (run s ops) := by
  induction ops generalizing s with
  | nil => exact h
  | cons o os ih => exact ih (step s o) (inv_step mw s o h)

/-! ### Helper lemmas about executions -/

theorem run_append (s : PoolState) (ops : List PoolOp) (o : PoolOp) :
    run s (ops ++ [o]) = step (run s ops) o := by
  simp [run, List.foldl_append]

theorem shutdown_closed (s : PoolState) (m : ShutdownMode) :
    (shutdown s m).tq.closed = true := by
  unfold shutdown
  by_cases hc : s.tq.closed = true
  · simp [hc]
  · rw [Bool.not_eq_true] at hc
    cases m <;> simp [hc, joinAll]

theorem joinAll_noop (s : PoolState) (hi : s.idle = 0) (hr : s.running = 0)
    (hreg : s.registry = []) : joinAll s = s := by
  unfold joinAll
  cases s
  simp_all

theorem step_discarded (s : PoolState) (o : PoolOp)
    (hne : o ≠ PoolOp.shutdown .Immediate) :
    (step s o).discarded = s.discarded := by
  cases o with
  | submit t ok =>
    by_cases hc : s.tq.closed = true
    · simp [step, submit, enqueue, hc]
    · rw [Bool.not_eq_true] at hc
      simp only [step, submit, enqueue, hc, Bool.false_eq_true, if_false]
      split
      · split <;> rfl
      · rfl
  | dequeue =>
    show (workerDequeue s).discarded = s.discarded
    unfold workerDequeue
    by_cases hi : s.idle = 0
    · simp [hi]
    · simp only [hi, if_false]
      cases hq : s.tq.items with
      | cons t rest => simp [dequeueBlocking, hq]
      | nil =>
        by_cases hc : s.tq.closed = true <;>
          simp [dequeueBlocking, hq, hc]
  | complete =>
    show (workerComplete s).discarded = s.discarded
    unfold workerComplete
    by_cases hr : s.running = 0 <;> simp [hr]
  | retire =>
    show (retireIdle s).discarded = s.discarded
    unfold retireIdle
    by_cases hi : s.idle = 0 <;> simp [hi]
  | shutdown m =>
    cases m with
    | Drain =>
      show (shutdown s .Drain).discarded = s.discarded
      unfold shutdown
      by_cases hc : s.tq.closed = true
      · simp [hc]
      · rw [Bool.not_eq_true] at hc
        simp [hc, joinAll]
    | Immediate => exact absurd rfl hne

theorem run_discarded (s : PoolState) (ops : List PoolOp)
    (hni : PoolOp.shutdown .Immediate ∉ ops) :
    (run s ops).discarded = s.discarded := by
  induction ops generalizing s with
  | nil => rfl
  | cons o os ih =>
    rw [List.mem_cons, not_or] at hni
    show (run (step s o) os).discarded = s.discarded
    rw [ih (step s o) hni.2]
    exact step_discarded s o (fun he => hni.1 he.symm)

/-! ## Theorems about the modelled thread pool (claims C3 through C8) -/

/-- C3: in every execution (every interleaving of submissions, worker
steps and shutdowns), each submission accepted before shutdown began is
accounted for exactly once — its count among the dequeued tasks plus the
discarded tasks plus the still-queued tasks equals its count among the
accepted submissions, so nothing is lost or duplicated; once shutdown has
closed the queue nothing remains queued (so by then every accepted task
has been dequeued or discarded); and an execution with no immediate-mode
shutdown discards nothing. -/
theorem tasks_dequeued_exactly_once (mw : Nat) (ops : List PoolOp) :
    (∀ t : Task,
      (run (init mw) ops).dequeued.count t +
        (run (init mw) ops).discarded.count t +
        (run (init mw) ops).tq.items.count t =
        (run (init mw) ops).accepted.count t) ∧
    ((run (init mw) ops).tq.closed = true → (run (init mw) ops).tq.items = []) ∧
    (PoolOp.shutdown .Immediate ∉ ops → (run (init mw) ops).discarded = []) := by
  have h := inv_run mw (init mw) ops (inv_init mw)
  refine ⟨?_, h.closed_items, ?_⟩
  · intro t
    rw [h.order]
    simp [List.count_append]
    omega
  · intro hni
    rw [run_discarded (init mw) ops hni]
    rfl

/-- Witness for C3: a run that submits task 7, has a worker dequeue it and
then shuts down in drain mode; the accounting, the emptiness of the closed
queue and the absence of discards are all checked on this concrete run. -/
theorem tasks_dequeued_exactly_once_witness :
    (run (init 1) [.submit 7 true, .dequeue, .shutdown .Drain]).dequeued.count 7 +
      (run (init 1) [.submit 7 true, .dequeue, .shutdown .Drain]).discarded.count 7 +
      (run (init 1) [.submit 7 true, .dequeue, .shutdown .Drain]).tq.items.count 7 =
      (run (init 1) [.submit 7 true, .dequeue, .shutdown .Drain]).accepted.count 7 ∧
    (run (init 1) [.submit 7 true, .dequeue, .shutdown .Drain]).tq.items = [] ∧
    (run (init 1) [.submit 7 true, .dequeue, .shutdown .Drain]).discarded = [] :=
  ⟨(tasks_dequeued_exactly_once 1 [.submit 7 true, .dequeue, .shutdown .Drain]).1 7,
   (tasks_dequeued_exactly_once 1 [.submit 7 true, .dequeue, .shutdown .Drain]).2.1
     (by decide),
   (tasks_dequeued_exactly_once 1 [.submit 7 true, .dequeue, .shutdown .Drain]).2.2
     (by decide)⟩

/-- C4: at every point of every execution — any interleaving of
operations, including concurrent submitters — the number of live workers
(Idle plus Running) never exceeds the configured maximum `max_workers`. -/
theorem live_workers_le_max (mw : Nat) (ops : List PoolOp) :
    (run (init mw) ops).idle + (run (init mw) ops).running ≤ mw := by
  have h := inv_run mw (init mw) ops (inv_init mw)
  have hle := h.live_le
  rw [h.max_eq] at hle
  exact hle

/-- C5: immediately after a `shutdown(mode)` call returns, in either mode
and whatever happened before it, no worker of the pool is live (neither
Idle nor Running — zero native threads of the pool still run), the Thread
Handle Registry is empty, and a subsequent `join_all()` is a no-op. -/
theorem shutdown_stops_all_workers (mw : Nat) (ops : List PoolOp)
    (m : ShutdownMode) :
    (run (init mw) (ops ++ [PoolOp.shutdown m])).idle = 0 ∧
    (run (init mw) (ops ++ [PoolOp.shutdown m])).running = 0 ∧
    (run (init mw) (ops ++ [PoolOp.shutdown m])).registry = [] ∧
    joinAll (run (init mw) (ops ++ [PoolOp.shutdown m])) =
      run (init mw) (ops ++ [PoolOp.shutdown m]) := by
  have hinv : Inv mw (run (init mw) (ops ++ [PoolOp.shutdown m])) :=
    inv_run mw (init mw) _ (inv_init mw)
  have hclosed : (run (init mw) (ops ++ [PoolOp.shutdown m])).tq.closed = true := by
    rw [run_append]
    exact shutdown_closed _ m
  obtain ⟨hi, hr, hreg⟩ := hinv.closed_workers hclosed
  exact ⟨hi, hr, hreg, joinAll_noop _ hi hr hreg⟩

/-- C6: if shutdown has begun (the queue is closed), every `submit` fails
with `Closed` and leaves the whole pool state — in particular the queue —
unchanged; otherwise `submit` succeeds and appends the task to the queue
and to the accepted history, whether or not a worker spawn is attempted
or succeeds. -/
theorem submit_closed_or_enqueues (s : PoolState) (t : Task) (ok : Bool) :
    (s.tq.closed = true → submit s t ok = (.error .Closed, s)) ∧
    (s.tq.closed = false →
      (submit s t ok).1 = .ok () ∧
      (submit s t ok).2.tq.items = s.tq.items ++ [t] ∧
      (submit s t ok).2.accepted = s.accepted ++ [t]) := by
  constructor
  · intro hc
    simp [submit, enqueue, hc]
  · intro hc
    simp only [submit, enqueue, hc, Bool.false_eq_true, if_false]
    split
    · split <;> exact ⟨rfl, rfl, rfl⟩
    · exact ⟨rfl, rfl, rfl⟩

/-- Witness for C6: on a fresh pool submission succeeds and enqueues; on a
pool shut down in drain mode it fails with `Closed` and changes nothing. -/
theorem submit_closed_or_enqueues_witness :
    ((submit (init 2) 5 true).1 = .ok () ∧
      (submit (init 2) 5 true).2.tq.items = (init 2).tq.items ++ [5] ∧
      (submit (init 2) 5 true).2.accepted = (init 2).accepted ++ [5]) ∧
    submit (shutdown (init 2) .Drain) 5 true =
      (.error .Closed, shutdown (init 2) .Drain) :=
  ⟨(submit_closed_or_enqueues (init 2) 5 true).2 rfl,
   (submit_closed_or_enqueues (shutdown (init 2) .Drain) 5 true).1 (by decide)⟩

/-- C7: the Task Queue is strict FIFO: on a non-empty queue
`dequeue_blocking` removes and returns the oldest (front) task; on an
empty queue it returns "no more work" when shutdown has been signalled and
otherwise suspends the caller; and across every execution the accepted
submissions are exactly the dequeued tasks followed by the discarded tasks
followed by the still-pending tasks, in submission order — no reordering
ever occurs. -/
theorem taskQueue_strict_fifo :
    (∀ (q : TaskQueue) (t : Task) (rest : List Task),
      q.items = t :: rest →
        dequeueBlocking q = (.gotTask t, { q with items := rest })) ∧
    (∀ q : TaskQueue, q.items = [] → q.closed = true →
      dequeueBlocking q = (.noMoreWork, q)) ∧
    (∀ q : TaskQueue, q.items = [] → q.closed = false →
      dequeueBlocking q = (.wouldBlock, q)) ∧
    (∀ (mw : Nat) (ops : List PoolOp),
      (run (init mw) ops).accepted =
        (run (init mw) ops).dequeued ++ (run (init mw) ops).discarded ++
          (run (init mw) ops).tq.items) := by
  refine ⟨?_, ?_, ?_, ?_⟩
  · intro q t rest hq
    simp [dequeueBlocking, hq]
  · intro q hq hc
    simp [dequeueBlocking, hq, hc]
  · intro q hq hc
    simp [dequeueBlocking, hq, hc]
  · intro mw ops
    exact (inv_run mw (init mw) ops (inv_init mw)).order

/-- Witness for C7: the three `dequeue_blocking` behaviours checked on
concrete queues — front removal, "no more work" after shutdown, and
suspension on an empty open queue. -/
theorem taskQueue_strict_fifo_witness :
    dequeueBlocking ⟨[3, 4], false⟩ = (.gotTask 3, ⟨[4], false⟩) ∧
    dequeueBlocking ⟨[], true⟩ = (.noMoreWork, ⟨[], true⟩) ∧
    dequeueBlocking ⟨[], false⟩ = (.wouldBlock, ⟨[], false⟩) :=
  ⟨taskQueue_strict_fifo.1 ⟨[3, 4], false⟩ 3 [4] rfl,
   taskQueue_strict_fifo.2.1 ⟨[], true⟩ rfl rfl,
   taskQueue_strict_fifo.2.2.1 ⟨[], false⟩ rfl rfl⟩

/-- C8: when the platform `spawn` fails with `ResourceExhausted` during a
submission to an open pool (`spawnOk = false`), the live worker counts and
the registry are unchanged, the task is still appended to the queue for an
existing or future worker, and the submission returns success, not an
error. -/
theorem spawn_failure_graceful (s : PoolState) (t : Task)
    (hc : s.tq.closed = false) :
    (submit s t false).1 = .ok () ∧
    (submit s t false).2.idle = s.idle ∧
    (submit s t false).2.running = s.running ∧
    (submit s t false).2.registry = s.registry ∧
    (submit s t false).2.tq.items = s.tq.items ++ [t] := by
  simp only [submit, enqueue, hc, Bool.false_eq_true, if_false]
  split
  · exact ⟨rfl, rfl, rfl, rfl, rfl⟩
  · exact ⟨rfl, rfl, rfl, rfl, rfl⟩

/-- Witness for C8: a failed spawn on a fresh pool of capacity 3: the
submission still succeeds, worker counts and registry stay put, and the
task sits in the queue. -/
theorem spawn_failure_graceful_witness :
    (submit (init 3) 9 false).1 = .ok () ∧
    (submit (init 3) 9 false).2.idle = (init 3).idle ∧
    (submit (init 3) 9 false).2.running = (init 3).running ∧
    (submit (init 3) 9 false).2.registry = (init 3).registry ∧
    (submit (init 3) 9 false).2.tq.items = (init 3).tq.items ++ [9] :=
  spawn_failure_graceful (init 3) 9 rfl

end Pool
